import Mathlib

/-!
Shallow embedding of the core of `FlirImageProcessor.py` (class `FLIRImage`):
radiometric calibration (`GetThermalData`), min/max location queries
(`GetMinMaxTemperatureAndLocation`), colormap normalization
(`RescaleImageColorMap`), display-to-data coordinate mapping and subregion
extraction (`AddOverlayBox` / `PlotMeasurementBoxes`), and point sampling
(`AddMeasurementPointMouseClickCallback`).

Conventions of the embedding:
* numpy float arrays become `List (List α)` over an ordered field
  (`ℝ` where the source needs `exp`/`log`, polymorphic otherwise, so that
  concrete witnesses can be evaluated at `ℚ`);
* Python `int()` on a non-negative float is `Int.floor`; on a negative one it
  truncates toward zero (`Int.ceil`);
* Python slices `l[a:b]` (step 1), including negative-index normalization and
  clamping, are modelled by `pySlice`;
* Python indexing `l[i]` with negative-index normalization is `pyGet`
  (out-of-range access yields the supplied default);
* 16-bit numpy integer arithmetic carries an explicit `% 65536`.
-/

namespace FLIR

/-- A 2-D array (numpy array of shape height x width). -/
abbrev Grid (α : Type) : Type := List (List α)

/-- Total number of cells, `numpy.ndarray.size`. -/
def gridSize (g : Grid α) : ℕ := (g.map List.length).sum

/-- Python `int()` on a rational: truncation toward zero. -/
def pyInt (q : ℚ) : ℤ := if 0 ≤ q then ⌊q⌋ else ⌈q⌉

/-- Python index normalization: `l[i]` means `l[i + len(l)]` for `i < 0`.
Out-of-range access returns the default `d` (the source never goes out of
range in the situations the claims cover). -/
def pyGet (l : List α) (i : ℤ) (d : α) : α :=
  let idx : ℤ := if i < 0 then i + l.length else i
  if 0 ≤ idx then l.getD idx.toNat d else d

/-- Two-dimensional Python indexing `g[i, j]`. -/
def pyGet2 (g : Grid α) (i j : ℤ) (d : α) : α :=
  pyGet (pyGet g i []) j d

/-- Python slice `l[a:b]` with step 1: negative indices are normalized by
adding `len(l)`, then both bounds are clamped to `[0, len(l)]`, and the
elements with (normalized) positions in `[a, b)` are returned. -/
def pySlice (a b : ℤ) (l : List α) : List α :=
  let n : ℤ := l.length
  let lo : ℕ := (if a < 0 then max (n + a) 0 else min a n).toNat
  let hi : ℕ := (if b < 0 then max (n + b) 0 else min b n).toNat
  (l.take hi).drop lo

/-! ### Byte-order correction (`GetThermalData`, lines 149-152) -/

/-- Transcribes `ExifByteOrder.split("-")[0] == "Little"`: the characters
before the first `-` (the whole string when there is none) compared with
`"Little"`.  Stated on `String.data` so it is kernel-computable. -/
def isLittleEndian (s : String) : Bool :=
  s.data.takeWhile (fun c => c != '-') == "Little".data

/-- One 16-bit sample of
`numpy.right_shift(ImageData, 8) + numpy.left_shift(numpy.bitwise_and(ImageData, 0x00FF), 8)`;
the sum is taken in the array's 16-bit element type, hence the `% 65536`. -/
def byteSwapPy (raw : ℕ) : ℕ :=
  ((raw >>> 8) + ((raw &&& 0xFF) <<< 8)) % 65536

/-- The byte-order fix-up applied to the whole raw grid: swap bytes exactly
when the declared byte order is the little-endian case. -/
def byteOrderCorrect (ExifByteOrder : String) (g : Grid ℕ) : Grid ℕ :=
  if isLittleEndian ExifByteOrder then g.map (List.map byteSwapPy) else g

/-- The spec's byte-swap formula `(raw >> 8) | ((raw & 0xFF) << 8)`. -/
def specByteSwap (raw : ℕ) : ℕ :=
  (raw >>> 8) ||| ((raw &&& 0xFF) <<< 8)

/-! ### Radiometric calibration (`GetThermalData`, lines 144-158) -/

/-- The per-shot calibration constants extracted from the exif metadata.
`RAT` is the numeric prefix of `ReflectedApparentTemperature`. -/
structure CalibrationConstants where
  PlanckR1 : ℝ
  PlanckR2 : ℝ
  PlanckB : ℝ
  PlanckF : ℝ
  PlanckO : ℝ
  Emissivity : ℝ
  RAT : ℝ

/-- `GetThermalData`: byte-order correction followed by the simplified
single-surface Planck inversion, element-wise over the grid.  The reflected
radiation factor is a scalar computed once; the remaining two steps are
vectorized over the (corrected) image data. -/
noncomputable def GetThermalData (c : CalibrationConstants) (ExifByteOrder : String)
    (RawThermalImage : Grid ℕ) : Grid ℝ :=
  let ImageData : Grid ℕ := byteOrderCorrect ExifByteOrder RawThermalImage
  let ReflectedRadiationFactor : ℝ :=
    c.PlanckR1 / (c.PlanckR2 * (Real.exp (c.PlanckB / (c.RAT + 273.15)) - c.PlanckF)) - c.PlanckO
  ImageData.map (List.map (fun (raw : ℕ) =>
    let ObjectRadiation : ℝ :=
      ((raw : ℝ) - (1 - c.Emissivity) * ReflectedRadiationFactor) / c.Emissivity
    c.PlanckB / Real.log (c.PlanckR1 / (c.PlanckR2 * (ObjectRadiation + c.PlanckO)) + c.PlanckF)
      - 273.15))

/-! Spec-side formulas for the calibration, transcribed from the claim's
wording (three steps, per pixel, with the reflected factor computed once). -/

/-- Spec formula `ReflFactor = R1 / (R2 * (exp(B / (RAT + 273.15)) - F)) - O`. -/
noncomputable def specReflFactor (R1 R2 B F O RAT : ℝ) : ℝ :=
  R1 / (R2 * (Real.exp (B / (RAT + 273.15)) - F)) - O

/-- Spec formula `ObjRad = (corrected - (1 - Emissivity) * ReflFactor) / Emissivity`. -/
noncomputable def specObjRad (corrected Emissivity ReflFactor : ℝ) : ℝ :=
  (corrected - (1 - Emissivity) * ReflFactor) / Emissivity

/-- Spec formula `Temp = B / ln(R1 / (R2 * (ObjRad + O)) + F) - 273.15`. -/
noncomputable def specTemp (B R1 R2 O F ObjRad : ℝ) : ℝ :=
  B / Real.log (R1 / (R2 * (ObjRad + O)) + F) - 273.15

/-- The raw sample at position `(i, j)` after the byte-order correction step. -/
def correctedSample (ExifByteOrder : String) (RawThermalImage : Grid ℕ) (i j : ℕ) : ℕ :=
  ((byteOrderCorrect ExifByteOrder RawThermalImage).getD i []).getD j 0

/-! ### Display-space selection rectangles and data-space extraction -/

/-- The selection box captured by `SelectionBoxMouseClickCallback`:
display-space (float) pixel coordinates of the press and release events. -/
structure SelectionBox where
  X1 : ℚ
  X2 : ℚ
  Y1 : ℚ
  Y2 : ℚ

/-- `SelectionBoxMouseClickCallback` (line 196) stores the box only when both
corners lie inside the 640x480 display area; the `RectangleSelector` widget is
configured with `minspanx=5, minspany=5` in pixel coordinates and hands the
press/release corners over ordered, so an accepted selection is
non-degenerate; coordinates on the image axes are non-negative. -/
def acceptedSelection (b : SelectionBox) : Prop :=
  0 ≤ b.X1 ∧ 0 ≤ b.Y1 ∧ b.X1 < 640 ∧ b.X2 < 640 ∧ b.Y1 < 480 ∧ b.Y2 < 480 ∧
    b.X1 + 5 ≤ b.X2 ∧ b.Y1 + 5 ≤ b.Y2

/-- Lines 403-407 of `AddOverlayBox`: scale the display-space selection down
to the data grid (`int(coordinate/4)`) and extract
`ThermalData[NewY1-1:NewY2, NewX1-1:NewX2]`. -/
def overlaySubgrid (g : Grid α) (b : SelectionBox) : Grid α :=
  let NewX1 := pyInt (b.X1 / 4)
  let NewY1 := pyInt (b.Y1 / 4)
  let NewX2 := pyInt (b.X2 / 4)
  let NewY2 := pyInt (b.Y2 / 4)
  (pySlice (NewY1 - 1) NewY2 g).map (pySlice (NewX1 - 1) NewX2)

/-- Lines 433-437 of `PlotMeasurementBoxes`: the scale-down and extraction as
written there (the same four `int(_/4)` conversions and the same slice). -/
def measurementSubgrid (g : Grid α) (b : SelectionBox) : Grid α :=
  let NewX1 := pyInt (b.X1 / 4)
  let NewY1 := pyInt (b.Y1 / 4)
  let NewX2 := pyInt (b.X2 / 4)
  let NewY2 := pyInt (b.Y2 / 4)
  (pySlice (NewY1 - 1) NewY2 g).map (pySlice (NewX1 - 1) NewX2)

/-- Lines 437-439: `sum(sum(NewTemperatureArray))/TemperatureSamples` where
`TemperatureSamples = NewTemperatureArray.size`.  Python's outer `sum` adds
the rows of a 2-D numpy array element-wise and the second `sum` adds the
resulting vector, i.e. the total over all cells.  Caveat of the embedding:
on an *empty* extraction the Python expression raises instead of returning
a number (`TypeError` when the row slice is empty, since the inner `sum`
yields the int 0 which the outer `sum` cannot iterate; `ZeroDivisionError`
when rows exist but hold no cells, since `size` is 0), whereas this total
function returns the junk value `0` there.  No theorem below relies on that
junk value: statements about a produced average carry a `gridSize _ ≠ 0`
hypothesis, and the empty case is only ever described as what it is — a sum
divided by a cell count of zero. -/
def averageTemperature [DivisionRing α] (g : Grid α) (b : SelectionBox) : α :=
  let NewTemperatureArray := measurementSubgrid g b
  let TemperatureSamples := gridSize NewTemperatureArray
  (NewTemperatureArray.map List.sum).sum / (TemperatureSamples : α)

/-! ### Grid minimum / maximum (`numpy.amin` / `numpy.amax`) -/

/-- `numpy.amin` over a 2-D array (the source only applies it to non-empty
grids; the empty case returns the junk value 0). -/
def amin [LinearOrder α] [Zero α] (g : Grid α) : α :=
  match g.flatten with
  | [] => 0
  | x :: xs => xs.foldl min x

/-- `numpy.amax` over a 2-D array, analogously. -/
def amax [LinearOrder α] [Zero α] (g : Grid α) : α :=
  match g.flatten with
  | [] => 0
  | x :: xs => xs.foldl max x

/-- `RescaleImageColorMap` (lines 177-179):
`(ImageArray - amin) / (amax - amin)` element-wise, with no degenerate-range
check.  (Over the reals of the embedding a zero denominator yields the junk
value 0 where numpy would produce NaN; either way a full grid is returned.) -/
def RescaleImageColorMap [LinearOrder α] [Field α] (ImageArray : Grid α) : Grid α :=
  ImageArray.map (List.map (fun v =>
    (v - amin ImageArray) / (amax ImageArray - amin ImageArray)))

/-! ### Min/max locations (`GetMinMaxTemperatureAndLocation`, lines 181-192) -/

/-- One row of `numpy.where(g == v)`: the ascending list of column indices
holding `v`. -/
def rowWhere [DecidableEq α] (v : α) : List α → List ℕ
  | [] => []
  | t :: ts => (if t = v then [0] else []) ++ (rowWhere v ts).map (· + 1)

/-- `numpy.where(g == v)` on a 2-D array: the row-major list of positions
`(y, x)` holding `v` (numpy returns the `y`s and the `x`s as two parallel
arrays in exactly this order). -/
def gridWhere [DecidableEq α] (v : α) : Grid α → List (ℕ × ℕ)
  | [] => []
  | row :: rest =>
      (rowWhere v row).map (fun x => (0, x)) ++
        (gridWhere v rest).map (fun p => (p.1 + 1, p.2))

/-- `GetMinMaxTemperatureAndLocation`: find every position of the grid
minimum and maximum with `numpy.where`, keep the first of each (`[0]`), read
the temperatures back from the grid there, then multiply the positions by 4.
Result: `(MinTemperature, MaxTemperature, MinLocation, MaxLocation)` with the
locations as `(X, Y)` pairs. -/
def GetMinMaxTemperatureAndLocation [LinearOrder α] [Zero α] [DecidableEq α]
    (g : Grid α) : α × α × (ℕ × ℕ) × (ℕ × ℕ) :=
  let minP := (gridWhere (amin g) g).headD (0, 0)
  let maxP := (gridWhere (amax g) g).headD (0, 0)
  let MinTemperature := (g.getD minP.1 []).getD minP.2 0
  let MaxTemperature := (g.getD maxP.1 []).getD maxP.2 0
  (MinTemperature, MaxTemperature, (4 * minP.2, 4 * minP.1), (4 * maxP.2, 4 * maxP.1))

/-! ### Point sampling (`AddMeasurementPointMouseClickCallback`, lines 211-228) -/

/-- An overlay as stored by `AddOverlayBox`: the inset axes object (modelled
by an identifier; `inset_axes` creates a fresh axes per overlay) and the
extracted temperature subgrid. -/
structure Overlay (α : Type) where
  OverlayAxes : ℕ
  TemperatureArray : Grid α

/-- A mouse click event: `xdata`/`ydata` are coordinates local to the axes the
click landed in, and `inaxes` is that axes' identity. -/
structure ClickEvent where
  xdata : ℚ
  ydata : ℚ
  inaxes : ℕ

/-- `AddMeasurementPointMouseClickCallback`, reduced to the temperature it
samples: `none` when the guard `X1 > 1.0 and Y1 > 1.0` rejects the click;
otherwise the loop over `OverlayBoxes` compares `event.inaxes` against each
overlay's axes (overwriting on every hit, so a later hit would win) and
samples the matching overlay's own `TemperatureArray` at the axes-local
data-space index `[int(Y1/4), int(X1/4)]`; only when no overlay matched
(`not AxesFound`) is the base `ThermalData` sampled. -/
def AddMeasurementPointMouseClickCallback (OverlayBoxes : List (Overlay α))
    (ThermalData : Grid α) (event : ClickEvent) (d : α) : Option α :=
  let X1 := event.xdata
  let Y1 := event.ydata
  if 1 < X1 ∧ 1 < Y1 then
    let found : Option α := OverlayBoxes.foldl
      (fun acc overlay =>
        if event.inaxes = overlay.OverlayAxes then
          some (pyGet2 overlay.TemperatureArray (pyInt (Y1 / 4)) (pyInt (X1 / 4)) d)
        else acc)
      none
    match found with
    | some NewTemperature => some NewTemperature
    | none => some (pyGet2 ThermalData (pyInt (Y1 / 4)) (pyInt (X1 / 4)) d)
  else none

/-! ### The resolution mapping in isolation -/

/-- Display to data space: divide by the scale factor 4 and truncate, as in
`int(X1/4)` (lines 222, 225, 403-406, 433-436). -/
def displayToData (q : ℚ) : ℤ := pyInt (q / 4)

/-- Data to display space: multiply by the scale factor 4, as in
`4*MinLocationX` (lines 186-189). -/
def dataToDisplay (i : ℤ) : ℤ := 4 * i

/-! ### Spec-side notions the claims compare against -/

/-- Spec-side: the unweighted arithmetic mean of all cells of a grid. -/
def gridMean [DivisionRing α] (g : Grid α) : α :=
  g.flatten.sum / (g.flatten.length : α)

/-- Spec-side: `p = (y, x)` is the position of the first occurrence of `v` in
row-major scan order: the cell at `p` holds `v` and no strictly earlier
in-range cell does. -/
def firstRowMajor [Zero α] (g : Grid α) (v : α) (p : ℕ × ℕ) : Prop :=
  p.1 < g.length ∧ p.2 < (g.getD p.1 []).length ∧ (g.getD p.1 []).getD p.2 0 = v ∧
    ∀ y x : ℕ, (y < p.1 ∨ (y = p.1 ∧ x < p.2)) → y < g.length →
      x < (g.getD y []).length → (g.getD y []).getD x 0 ≠ v

/-! ### Small synthetic grids used as concrete inputs -/

/-- A 6x6 synthetic data grid with cell `(y, x)` holding `10*y + x`
(display image 24x24 under the fixed scale factor 4). -/
def sampleGrid6 : Grid ℚ :=
  [[0, 1, 2, 3, 4, 5], [10, 11, 12, 13, 14, 15], [20, 21, 22, 23, 24, 25],
   [30, 31, 32, 33, 34, 35], [40, 41, 42, 43, 44, 45], [50, 51, 52, 53, 54, 55]]

/-- A 4x4 synthetic data grid with every cell equal to 2 (display image
16x16 under the fixed scale factor 4). -/
def sampleGrid4 : Grid ℚ :=
  [[2, 2, 2, 2], [2, 2, 2, 2], [2, 2, 2, 2], [2, 2, 2, 2]]

/-! ### Helper lemmas about the Python primitives -/

/-- Evaluate `pyInt` at a concrete non-negative rational. -/
theorem pyInt_eq_of (q : ℚ) (z : ℤ) (h0 : 0 ≤ q) (h1 : (z : ℚ) ≤ q) (h2 : q < z + 1) :
    pyInt q = z := by
  unfold pyInt
  rw [if_pos h0]
  exact Int.floor_eq_iff.mpr ⟨h1, by exact_mod_cast h2⟩

/-- On non-negative inputs `pyInt` is the floor. -/
theorem pyInt_nonneg (q : ℚ) (h0 : 0 ≤ q) : pyInt q = ⌊q⌋ := by
  unfold pyInt
  rw [if_pos h0]

/-- A Python slice with in-range non-negative bounds is a `drop`-then-`take`:
the elements at positions `a, a+1, ..., b-1` (stop exclusive). -/
theorem pySlice_eq_drop_take (a b : ℤ) (l : List α) (ha : 0 ≤ a) (hb : 0 ≤ b)
    (han : a ≤ l.length) (hbn : b ≤ l.length) :
    pySlice a b l = (l.drop a.toNat).take (b.toNat - a.toNat) := by
  unfold pySlice
  simp only [if_neg (not_lt.mpr ha), if_neg (not_lt.mpr hb)]
  rw [min_eq_left han, min_eq_left hbn]
  rcases le_or_lt a b with hab | hab
  · have he : a.toNat + (b.toNat - a.toNat) = b.toNat := by omega
    rw [List.take_drop, he]
  · have he : b.toNat - a.toNat = 0 := by omega
    rw [he, List.take_zero, List.drop_eq_nil_iff]
    simp only [List.length_take]
    omega

/-- A Python slice `l[-1:b]` whose stop `b` does not reach the last position
is empty: the negative start normalizes to `len(l) - 1 ≥ b`. -/
theorem pySlice_neg_one_empty (b : ℤ) (l : List α) (hl : l ≠ [])
    (hb : 0 ≤ b) (hbn : b ≤ (l.length : ℤ) - 1) :
    pySlice (-1) b l = [] := by
  unfold pySlice
  have hn : 1 ≤ (l.length : ℤ) := by
    have := List.length_pos.mpr hl
    omega
  simp only [if_pos (show (-1 : ℤ) < 0 by norm_num), if_neg (not_lt.mpr hb)]
  rw [max_eq_left (by omega : (0 : ℤ) ≤ (l.length : ℤ) + -1),
    min_eq_left (by omega : b ≤ (l.length : ℤ))]
  rw [List.drop_eq_nil_iff]
  simp only [List.length_take]
  omega

/-- Indexing after an element-wise `map`, with an in-range index. -/
theorem getD_map_of_lt {β : Type} (f : α → β) (l : List α) (i : ℕ)
    (h : i < l.length) (d : β) (d' : α) :
    (l.map f).getD i d = f (l.getD i d') := by
  rw [List.getD_eq_getElem?_getD, List.getD_eq_getElem?_getD, List.getElem?_map,
    List.getElem?_eq_getElem h]
  simp

/-- Row lengths are unchanged by an element-wise `map` over a grid. -/
theorem length_getD_map_map {β : Type} (f : α → β) (l : Grid α) (i : ℕ) :
    ((l.map (List.map f)).getD i []).length = (l.getD i []).length := by
  rcases Nat.lt_or_ge i l.length with h | h
  · rw [getD_map_of_lt (List.map f) l i h [] []]
    simp
  · rw [List.getD_eq_default, List.getD_eq_default] <;> simp [h]

/-! ### Claim C3: the byte-order correction step -/

/-- Claim C3: on every 16-bit raw sample the byte-swap computed by
`GetThermalData` (shift, mask and 16-bit addition) agrees with the spec's
`(raw >> 8) | ((raw & 0xFF) << 8)`; the swap is applied to the grid exactly
when the declared byte order is the little-endian case and every value passes
through unchanged otherwise. -/
theorem byte_order_correction_swaps_iff_little (raw : ℕ) (h : raw < 65536)
    (s : String) (g : Grid ℕ) (hs : isLittleEndian s = false) :
    byteSwapPy raw = specByteSwap raw ∧
      byteOrderCorrect s g = g ∧
      ∀ t : String, isLittleEndian t = true →
        byteOrderCorrect t g = g.map (List.map byteSwapPy) := by
  refine ⟨?_, ?_, ?_⟩
  · unfold byteSwapPy specByteSwap
    have hand : raw &&& 0xFF = raw % 256 := by
      have := Nat.and_pow_two_sub_one_eq_mod raw 8
      norm_num at this
      exact this
    have hshr : raw >>> 8 = raw / 256 := by
      have := Nat.shiftRight_eq_div_pow raw 8
      norm_num at this
      exact this
    have hshl : (raw % 256) <<< 8 = (raw % 256) * 256 := by
      have := Nat.shiftLeft_eq (raw % 256) 8
      norm_num at this
      exact this
    rw [hand, hshr, hshl]
    have hlt : raw / 256 < 2 ^ 8 := by omega
    have hor := Nat.mul_add_lt_is_or hlt (raw % 256)
    have h256 : (2 : ℕ) ^ 8 = 256 := by norm_num
    rw [h256] at hor
    rw [Nat.lor_comm, show raw % 256 * 256 = 256 * (raw % 256) from Nat.mul_comm _ _, ← hor]
    omega
  · unfold byteOrderCorrect
    rw [hs]
    simp
  · intro t ht
    unfold byteOrderCorrect
    rw [ht]
    simp

/-- Witness for C3 at the sample `0xABCD`, a big-endian declaration, and a
little-endian declaration. -/
theorem byte_order_correction_swaps_iff_little_witness :
    43981 < 65536 ∧ isLittleEndian "Big-endian (Motorola, MM)" = false ∧
      (byteSwapPy 43981 = specByteSwap 43981 ∧
        byteOrderCorrect "Big-endian (Motorola, MM)" [[43981]] = [[43981]] ∧
        ∀ t : String, isLittleEndian t = true →
          byteOrderCorrect t [[43981]] = [[43981]].map (List.map byteSwapPy)) :=
  ⟨by decide, by decide,
    byte_order_correction_swaps_iff_little 43981 (by decide) _ _ (by decide)⟩

/-! ### Claim C1: the calibration formula -/

/-- Claim C1: with positive emissivity, every output pixel of
`GetThermalData` is the claim's three-step formula — the reflected-radiation
factor, the per-pixel object radiation, and the Planck inversion — applied to
the byte-order-corrected raw sample at the same position. -/
theorem calibration_matches_spec_formula (c : CalibrationConstants)
    (hE : 0 < c.Emissivity) (ExifByteOrder : String) (raw : Grid ℕ) (i j : ℕ)
    (hi : i < raw.length)
    (hj : j < ((byteOrderCorrect ExifByteOrder raw).getD i []).length) :
    ((GetThermalData c ExifByteOrder raw).getD i []).getD j 0 =
      specTemp c.PlanckB c.PlanckR1 c.PlanckR2 c.PlanckO c.PlanckF
        (specObjRad (correctedSample ExifByteOrder raw i j) c.Emissivity
          (specReflFactor c.PlanckR1 c.PlanckR2 c.PlanckB c.PlanckF c.PlanckO c.RAT)) := by
  have hlen : (byteOrderCorrect ExifByteOrder raw).length = raw.length := by
    unfold byteOrderCorrect
    split <;> simp
  simp only [GetThermalData, correctedSample]
  rw [getD_map_of_lt (List.map _) (byteOrderCorrect ExifByteOrder raw) i (hlen ▸ hi) [] []]
  rw [getD_map_of_lt _ _ j hj 0 0]
  rfl

/-- Witness for C1: the spec's end-to-end sample, raw count 30000 with
`R1=1000, R2=0.01, B=1400, F=1, O=0, Emissivity=0.95, RAT=20.0`, passed
through unswapped (big-endian declaration), calibrates to the claim's formula
evaluated at 30000. -/
theorem calibration_matches_spec_formula_witness :
    0 < (⟨1000, 1/100, 1400, 1, 0, 95/100, 20⟩ : CalibrationConstants).Emissivity ∧
      ((GetThermalData ⟨1000, 1/100, 1400, 1, 0, 95/100, 20⟩
          "Big-endian (Motorola, MM)" [[30000]]).getD 0 []).getD 0 0 =
        specTemp 1400 1000 (1/100) 0 1
          (specObjRad (correctedSample "Big-endian (Motorola, MM)" [[30000]] 0 0) (95/100)
            (specReflFactor 1000 (1/100) 1400 1 0 20)) :=
  ⟨by norm_num,
    calibration_matches_spec_formula ⟨1000, 1/100, 1400, 1, 0, 95/100, 20⟩ (by norm_num)
      "Big-endian (Motorola, MM)" [[30000]] 0 0 (by norm_num)
      (by rw [show byteOrderCorrect "Big-endian (Motorola, MM)" [[30000]] = [[30000]] from by
            unfold byteOrderCorrect; rw [show isLittleEndian "Big-endian (Motorola, MM)" = false from by decide]; simp]
          norm_num)⟩

/-! ### Claim C2: behaviour at zero emissivity -/

/-- C2, amended: with `Emissivity = 0` the code raises no error at all — no
emissivity check exists — and returns a temperature grid of exactly the raw
grid's shape (numpy's division by zero silently yields non-finite values in
place of each pixel; the whole-grid abort the claim demands does not occur). -/
theorem zero_emissivity_returns_full_grid (c : CalibrationConstants)
    (hE : c.Emissivity = 0) (ExifByteOrder : String) (raw : Grid ℕ) :
    (GetThermalData c ExifByteOrder raw).length = raw.length ∧
      ∀ i : ℕ, ((GetThermalData c ExifByteOrder raw).getD i []).length =
        (raw.getD i []).length := by
  have hlen : (byteOrderCorrect ExifByteOrder raw).length = raw.length := by
    unfold byteOrderCorrect
    split <;> simp
  have hrow : ∀ i : ℕ, ((byteOrderCorrect ExifByteOrder raw).getD i []).length =
      (raw.getD i []).length := by
    intro i
    unfold byteOrderCorrect
    split
    · exact length_getD_map_map byteSwapPy raw i
    · rfl
  constructor
  · simp only [GetThermalData]
    simpa using hlen
  · intro i
    simp only [GetThermalData]
    rw [length_getD_map_map]
    exact hrow i

/-- Witness for C2 (amended): concrete zero-emissivity constants and a 1x1
raw grid. -/
theorem zero_emissivity_returns_full_grid_witness :
    (⟨1000, 1/100, 1400, 1, 0, 0, 20⟩ : CalibrationConstants).Emissivity = 0 ∧
      ((GetThermalData ⟨1000, 1/100, 1400, 1, 0, 0, 20⟩ "Little-endian (Intel, II)"
          [[30000]]).length = 1 ∧
        ∀ i : ℕ, ((GetThermalData ⟨1000, 1/100, 1400, 1, 0, 0, 20⟩
            "Little-endian (Intel, II)" [[30000]]).getD i []).length =
          (([[30000]] : Grid ℕ).getD i []).length) :=
  ⟨rfl,
    (zero_emissivity_returns_full_grid ⟨1000, 1/100, 1400, 1, 0, 0, 20⟩ rfl
        "Little-endian (Intel, II)" [[30000]]).imp_left (fun h => h.trans rfl)⟩

/-- Counterexample to C2 as stated: at `Emissivity = 0` the calibration call
does not abort — it produces a 1x1 grid of temperature values for a 1x1 raw
input (in numpy these are silent NaN/Inf values, not an `InvalidCalibration`
error). -/
theorem zero_emissivity_no_error_raised :
    (GetThermalData ⟨1000, 1/100, 1400, 1, 0, 0, 20⟩ "Little-endian (Intel, II)"
        [[30000]]).length = 1 ∧
      ((GetThermalData ⟨1000, 1/100, 1400, 1, 0, 0, 20⟩ "Little-endian (Intel, II)"
          [[30000]]).getD 0 []).length = 1 := by
  have hL : isLittleEndian "Little-endian (Intel, II)" = true := by decide
  constructor <;> simp [GetThermalData, byteOrderCorrect, hL]

/-! ### Claim C9: the coordinate round trip -/

/-- Claim C9: for a non-negative display coordinate, mapping to data space
(`int(q/4)`) and back (`4*i`) moves the coordinate by strictly less than the
scale factor 4. -/
theorem display_roundtrip_within_one_cell (q : ℚ) (h0 : 0 ≤ q) :
    |q - ((dataToDisplay (displayToData q) : ℤ) : ℚ)| < 4 := by
  unfold dataToDisplay displayToData
  rw [pyInt_nonneg _ (by positivity)]
  have h1 : ((⌊q / 4⌋ : ℤ) : ℚ) ≤ q / 4 := Int.floor_le _
  have h2 : q / 4 < ⌊q / 4⌋ + 1 := Int.lt_floor_add_one _
  rw [abs_lt]
  push_cast
  constructor <;> linarith

/-- Witness for C9 at the display coordinate 6. -/
theorem display_roundtrip_within_one_cell_witness :
    0 ≤ (6 : ℚ) ∧ |(6 : ℚ) - ((dataToDisplay (displayToData 6) : ℤ) : ℚ)| < 4 :=
  ⟨by norm_num, display_roundtrip_within_one_cell 6 (by norm_num)⟩

/-! ### Concrete `pyInt` evaluations -/

theorem pyInt_0_4 : pyInt ((0 : ℚ) / 4) = 0 :=
  pyInt_eq_of _ 0 (by norm_num) (by norm_num) (by norm_num)

theorem pyInt_2_4 : pyInt ((2 : ℚ) / 4) = 0 :=
  pyInt_eq_of _ 0 (by norm_num) (by norm_num) (by norm_num)

theorem pyInt_8_4 : pyInt ((8 : ℚ) / 4) = 2 :=
  pyInt_eq_of _ 2 (by norm_num) (by norm_num) (by norm_num)

theorem pyInt_10_4 : pyInt ((10 : ℚ) / 4) = 2 :=
  pyInt_eq_of _ 2 (by norm_num) (by norm_num) (by norm_num)

theorem pyInt_15_4 : pyInt ((15 : ℚ) / 4) = 3 :=
  pyInt_eq_of _ 3 (by norm_num) (by norm_num) (by norm_num)

theorem pyInt_17_4 : pyInt ((17 : ℚ) / 4) = 4 :=
  pyInt_eq_of _ 4 (by norm_num) (by norm_num) (by norm_num)

theorem pyInt_100_4 : pyInt ((100 : ℚ) / 4) = 25 :=
  pyInt_eq_of _ 25 (by norm_num) (by norm_num) (by norm_num)

/-! ### Claim C4: the extraction's index range -/

/-- Counterexample to C4 as stated: for the display rectangle (8,8)-(17,17)
the truncated data-space corners are (2,2)-(4,4), and the extracted subregion
consists of rows and columns 1..3 of the grid — it does not include the pixel
at the truncated upper index (4,4) (value 44 here), because the Python slice
stop `NewX2` is exclusive. -/
theorem extraction_excludes_truncated_upper_index :
    pyInt ((17 : ℚ) / 4) = 4 ∧
      (sampleGrid6.getD 4 []).getD 4 0 = 44 ∧
      overlaySubgrid sampleGrid6 ⟨8, 17, 8, 17⟩ =
        [[11, 12, 13], [21, 22, 23], [31, 32, 33]] ∧
      (44 : ℚ) ∉ (overlaySubgrid sampleGrid6 ⟨8, 17, 8, 17⟩).flatten := by
  have hsub : overlaySubgrid sampleGrid6 ⟨8, 17, 8, 17⟩ =
      [[11, 12, 13], [21, 22, 23], [31, 32, 33]] := by
    simp only [overlaySubgrid, pyInt_8_4, pyInt_17_4]
    decide
  refine ⟨pyInt_17_4, by decide, hsub, ?_⟩
  rw [hsub]
  decide

/-- C4, amended: with the truncated corners in range (both low corners at
least 1, both upper corners within the grid) the extracted subregion spans,
in each axis, the inclusive index range from one before the truncated low
corner up to one before the truncated upper index — `drop (lo - 1)` then
`take (hi - lo + 1)` — i.e. the high end stops one short of the truncated
upper index (Python's slice stop is exclusive). -/
theorem extraction_range_off_by_one (g : Grid α) (b : SelectionBox)
    (hx1 : 1 ≤ pyInt (b.X1 / 4)) (hy1 : 1 ≤ pyInt (b.Y1 / 4))
    (hxx : pyInt (b.X1 / 4) ≤ pyInt (b.X2 / 4))
    (hyy : pyInt (b.Y1 / 4) ≤ pyInt (b.Y2 / 4))
    (hyn : pyInt (b.Y2 / 4) ≤ g.length)
    (hxn : ∀ row ∈ g, pyInt (b.X2 / 4) ≤ row.length) :
    overlaySubgrid g b =
      ((g.drop (pyInt (b.Y1 / 4) - 1).toNat).take
          ((pyInt (b.Y2 / 4)).toNat - (pyInt (b.Y1 / 4)).toNat + 1)).map
        (fun row => (row.drop (pyInt (b.X1 / 4) - 1).toNat).take
          ((pyInt (b.X2 / 4)).toNat - (pyInt (b.X1 / 4)).toNat + 1)) := by
  simp only [overlaySubgrid]
  rw [pySlice_eq_drop_take (pyInt (b.Y1 / 4) - 1) (pyInt (b.Y2 / 4)) g (by omega)
    (by omega) (by omega) hyn]
  have hcy : (pyInt (b.Y2 / 4)).toNat - (pyInt (b.Y1 / 4) - 1).toNat =
      (pyInt (b.Y2 / 4)).toNat - (pyInt (b.Y1 / 4)).toNat + 1 := by omega
  rw [hcy]
  apply List.map_congr_left
  intro row hrow
  have hmem : row ∈ g := by
    have hsub : ((g.drop (pyInt (b.Y1 / 4) - 1).toNat).take
        ((pyInt (b.Y2 / 4)).toNat - (pyInt (b.Y1 / 4)).toNat + 1)).Sublist g :=
      (List.take_sublist _ _).trans (List.drop_sublist _ _)
    exact hsub.subset hrow
  have hxr := hxn row hmem
  rw [pySlice_eq_drop_take (pyInt (b.X1 / 4) - 1) (pyInt (b.X2 / 4)) row (by omega)
    (by omega) (by omega) hxr]
  have hcx : (pyInt (b.X2 / 4)).toNat - (pyInt (b.X1 / 4) - 1).toNat =
      (pyInt (b.X2 / 4)).toNat - (pyInt (b.X1 / 4)).toNat + 1 := by omega
  rw [hcx]

/-- Witness for the amended C4 at the rectangle (8,8)-(17,17) over the 6x6
sample grid. -/
theorem extraction_range_off_by_one_witness :
    (1 ≤ pyInt ((8 : ℚ) / 4) ∧ (∀ row ∈ sampleGrid6, pyInt ((17 : ℚ) / 4) ≤ row.length)) ∧
      overlaySubgrid sampleGrid6 ⟨8, 17, 8, 17⟩ =
        ((sampleGrid6.drop (pyInt ((8 : ℚ) / 4) - 1).toNat).take
            ((pyInt ((17 : ℚ) / 4)).toNat - (pyInt ((8 : ℚ) / 4)).toNat + 1)).map
          (fun row => (row.drop (pyInt ((8 : ℚ) / 4) - 1).toNat).take
            ((pyInt ((17 : ℚ) / 4)).toNat - (pyInt ((8 : ℚ) / 4)).toNat + 1)) :=
  ⟨⟨by rw [pyInt_8_4]; norm_num, by simp only [pyInt_17_4]; decide⟩,
    extraction_range_off_by_one sampleGrid6 ⟨8, 17, 8, 17⟩
      (by rw [pyInt_8_4]; norm_num) (by rw [pyInt_8_4]; norm_num)
      (by rw [pyInt_8_4, pyInt_17_4]; norm_num) (by rw [pyInt_8_4, pyInt_17_4]; norm_num)
      (by rw [pyInt_17_4]; decide) (by simp only [pyInt_17_4]; decide)⟩

/-! ### Claim C6: the average-temperature box -/

/-- C6, amended in its corollary only: the measurement-box path maps the
rectangle to data space by exactly the same rule as the overlay path, and —
whenever the extraction has any cells at all, i.e. whenever the Python
computation returns a value rather than raising — the computed average is
the sum of the extracted subregion's cells divided by their number (the
unweighted arithmetic mean, no cell excluded).  The claim's corollary for a
rectangle covering the entire grid fails — see the counterexample — because
the extraction's `-1` start keeps a full-display rectangle from extracting
the full grid: the extraction is empty and the Python computation raises
before producing any average. -/
theorem average_is_mean_of_extraction [DivisionRing α] (g : Grid α) (b : SelectionBox)
    (h : gridSize (measurementSubgrid g b) ≠ 0) :
    measurementSubgrid g b = overlaySubgrid g b ∧
      averageTemperature g b = gridMean (measurementSubgrid g b) := by
  refine ⟨rfl, ?_⟩
  unfold averageTemperature gridMean gridSize
  rw [List.sum_flatten, List.length_flatten]

/-- Witness for the amended C6 at the rectangle (8,8)-(17,17) over the 6x6
sample grid, whose extraction holds 9 cells. -/
theorem average_is_mean_of_extraction_witness :
    gridSize (measurementSubgrid sampleGrid6 ⟨8, 17, 8, 17⟩) ≠ 0 ∧
      (measurementSubgrid sampleGrid6 ⟨8, 17, 8, 17⟩ =
          overlaySubgrid sampleGrid6 ⟨8, 17, 8, 17⟩ ∧
        averageTemperature sampleGrid6 ⟨8, 17, 8, 17⟩ =
          gridMean (measurementSubgrid sampleGrid6 ⟨8, 17, 8, 17⟩)) :=
  ⟨by simp only [measurementSubgrid, pyInt_8_4, pyInt_17_4]; decide,
    average_is_mean_of_extraction sampleGrid6 ⟨8, 17, 8, 17⟩
      (by simp only [measurementSubgrid, pyInt_8_4, pyInt_17_4]; decide)⟩

/-- Counterexample to C6's full-grid corollary: over the 4x4 all-2 grid
(16x16 display) the rectangle (0,0)-(15,15) covers the entire display, but
its truncated low corners are 0, the slice start becomes the Python index
-1, and the extracted subregion is *empty* — zero rows, zero cells — while
the grid itself has 16 cells.  No average of the grid's values is ever
formed: in Python the inner `sum` over the 0-row extraction yields the int
0 and the outer `sum(0)` raises `TypeError` before the division, so the
result cannot equal the grid mean. -/
theorem full_display_extraction_is_empty :
    measurementSubgrid sampleGrid4 ⟨0, 15, 0, 15⟩ = [] ∧
      gridSize (measurementSubgrid sampleGrid4 ⟨0, 15, 0, 15⟩) = 0 ∧
      sampleGrid4.flatten.length = 16 := by
  have hempty : pySlice ((-1 : ℤ)) 3 sampleGrid4 = ([] : Grid ℚ) := by
    apply pySlice_neg_one_empty 3 sampleGrid4 (by decide) (by norm_num)
    decide
  have hsub : measurementSubgrid sampleGrid4 ⟨0, 15, 0, 15⟩ = [] := by
    simp only [measurementSubgrid, pyInt_0_4, pyInt_15_4]
    rw [show ((0 : ℤ) - 1) = -1 by norm_num, hempty]
    rfl
  refine ⟨hsub, ?_, by decide⟩
  rw [hsub]
  rfl

/-! ### Claim C10: accepted selections with empty extractions -/

/-- Claim C10: the display rectangle (2,10)-(100,100) passes the selection
filter (in bounds, span well above 5 pixels), yet its truncated low x-corner
is 0, so the slice start becomes the Python index -1, which normalizes to
column 159 of a 160-wide grid while the stop is only 25: for every 120x160
data grid the extracted subregion has zero cells and the average-temperature
computation divides the sum by a cell count of zero. -/
theorem accepted_box_with_empty_extraction :
    acceptedSelection ⟨2, 100, 10, 100⟩ ∧
      ∀ g : Grid ℚ, g.length = 120 → (∀ row ∈ g, row.length = 160) →
        gridSize (measurementSubgrid g ⟨2, 100, 10, 100⟩) = 0 ∧
        averageTemperature g ⟨2, 100, 10, 100⟩ =
          ((measurementSubgrid g ⟨2, 100, 10, 100⟩).map List.sum).sum / ((0 : ℕ) : ℚ) := by
  constructor
  · unfold acceptedSelection
    norm_num
  · intro g hg hrow
    have hsub : measurementSubgrid g ⟨2, 100, 10, 100⟩ =
        (pySlice 1 25 g).map (pySlice (-1) 25) := by
      simp only [measurementSubgrid, pyInt_2_4, pyInt_10_4, pyInt_100_4]
      rw [show ((0 : ℤ) - 1) = -1 by norm_num, show ((2 : ℤ) - 1) = 1 by norm_num]
    have hcols : ∀ row ∈ pySlice 1 25 g, pySlice ((-1 : ℤ)) 25 row = ([] : List ℚ) := by
      intro row hr
      have hmem : row ∈ g := by
        unfold pySlice at hr
        exact ((List.drop_sublist _ _).trans (List.take_sublist _ _)).subset hr
      have h160 := hrow row hmem
      apply pySlice_neg_one_empty 25 row
      · intro hnil
        rw [hnil] at h160
        simp at h160
      · norm_num
      · rw [h160]
        norm_num
    have hzero : gridSize (measurementSubgrid g ⟨2, 100, 10, 100⟩) = 0 := by
      rw [hsub]
      unfold gridSize
      rw [List.map_map]
      apply List.sum_eq_zero
      intro x hx
      rcases List.mem_map.mp hx with ⟨row, hrmem, hrx⟩
      rw [← hrx]
      simp [hcols row hrmem]
    refine ⟨hzero, ?_⟩
    simp only [averageTemperature]
    rw [hzero]

/-- Witness for C10's universally quantified part at the all-zero 120x160
grid. -/
theorem accepted_box_with_empty_extraction_witness :
    (List.replicate 120 (List.replicate 160 (0 : ℚ))).length = 120 ∧
      (∀ row ∈ List.replicate 120 (List.replicate 160 (0 : ℚ)), row.length = 160) ∧
      (gridSize (measurementSubgrid (List.replicate 120 (List.replicate 160 (0 : ℚ)))
          ⟨2, 100, 10, 100⟩) = 0 ∧
        averageTemperature (List.replicate 120 (List.replicate 160 (0 : ℚ)))
            ⟨2, 100, 10, 100⟩ =
          ((measurementSubgrid (List.replicate 120 (List.replicate 160 (0 : ℚ)))
              ⟨2, 100, 10, 100⟩).map List.sum).sum / ((0 : ℕ) : ℚ)) :=
  ⟨by simp, by simp +contextual [List.mem_replicate],
    accepted_box_with_empty_extraction.2 _ (by simp)
      (by simp +contextual [List.mem_replicate])⟩

/-! ### Bounds for `amin` / `amax` -/

theorem foldl_min_le_init [LinearOrder α] (l : List α) (x : α) : l.foldl min x ≤ x := by
  induction l generalizing x with
  | nil => exact le_refl x
  | cons a l ih => exact (ih (min x a)).trans (min_le_left x a)

theorem foldl_min_le_mem [LinearOrder α] (l : List α) (x v : α) (h : v ∈ l) :
    l.foldl min x ≤ v := by
  induction l generalizing x with
  | nil => cases h
  | cons a l ih =>
    rcases List.mem_cons.mp h with rfl | hv
    · exact (foldl_min_le_init l (min x v)).trans (min_le_right x v)
    · exact ih (min x a) hv

theorem foldl_min_mem [LinearOrder α] (l : List α) (x : α) : l.foldl min x ∈ x :: l := by
  induction l generalizing x with
  | nil => simp
  | cons a l ih =>
    have := ih (min x a)
    rcases List.mem_cons.mp this with he | hm
    · rcases min_choice x a with h1 | h1 <;> rw [List.foldl_cons, he, h1] <;> simp
    · simp [List.foldl_cons, List.mem_cons.mpr (Or.inr (List.mem_cons.mpr (Or.inr hm)))]

theorem init_le_foldl_max [LinearOrder α] (l : List α) (x : α) : x ≤ l.foldl max x := by
  induction l generalizing x with
  | nil => exact le_refl x
  | cons a l ih => exact (le_max_left x a).trans (ih (max x a))

theorem mem_le_foldl_max [LinearOrder α] (l : List α) (x v : α) (h : v ∈ l) :
    v ≤ l.foldl max x := by
  induction l generalizing x with
  | nil => cases h
  | cons a l ih =>
    rcases List.mem_cons.mp h with rfl | hv
    · exact (le_max_right x v).trans (init_le_foldl_max l (max x v))
    · exact ih (max x a) hv

theorem foldl_max_mem [LinearOrder α] (l : List α) (x : α) : l.foldl max x ∈ x :: l := by
  induction l generalizing x with
  | nil => simp
  | cons a l ih =>
    have := ih (max x a)
    rcases List.mem_cons.mp this with he | hm
    · rcases max_choice x a with h1 | h1 <;> rw [List.foldl_cons, he, h1] <;> simp
    · simp [List.foldl_cons, List.mem_cons.mpr (Or.inr (List.mem_cons.mpr (Or.inr hm)))]

/-- `numpy.amin` bounds every cell from below. -/
theorem amin_le [LinearOrder α] [Zero α] (g : Grid α) (v : α) (h : v ∈ g.flatten) :
    amin g ≤ v := by
  unfold amin
  rcases hgf : g.flatten with _ | ⟨x, xs⟩
  · rw [hgf] at h
    cases h
  · rw [hgf] at h
    rcases List.mem_cons.mp h with rfl | hv
    · exact foldl_min_le_init xs v
    · exact foldl_min_le_mem xs x v hv

/-- `numpy.amax` bounds every cell from above. -/
theorem le_amax [LinearOrder α] [Zero α] (g : Grid α) (v : α) (h : v ∈ g.flatten) :
    v ≤ amax g := by
  unfold amax
  rcases hgf : g.flatten with _ | ⟨x, xs⟩
  · rw [hgf] at h
    cases h
  · rw [hgf] at h
    rcases List.mem_cons.mp h with rfl | hv
    · exact init_le_foldl_max xs v
    · exact mem_le_foldl_max xs x v hv

/-- On a non-empty grid, `numpy.amin` is attained by some cell. -/
theorem amin_mem [LinearOrder α] [Zero α] (g : Grid α) (h : g.flatten ≠ []) :
    amin g ∈ g.flatten := by
  rcases hgf : g.flatten with _ | ⟨x, xs⟩
  · exact absurd hgf h
  · have he : amin g = xs.foldl min x := by
      unfold amin
      rw [hgf]
    rw [he]
    exact foldl_min_mem xs x

/-- On a non-empty grid, `numpy.amax` is attained by some cell. -/
theorem amax_mem [LinearOrder α] [Zero α] (g : Grid α) (h : g.flatten ≠ []) :
    amax g ∈ g.flatten := by
  rcases hgf : g.flatten with _ | ⟨x, xs⟩
  · exact absurd hgf h
  · have he : amax g = xs.foldl max x := by
      unfold amax
      rw [hgf]
    rw [he]
    exact foldl_max_mem xs x

/-! ### Claim C8: colormap normalization -/

/-- C8, amended: `RescaleImageColorMap` never raises — there is no
degenerate-range check — but on a grid whose maximum exceeds its minimum it
maps every value by `(value - min) / (max - min)`, all outputs lie in
`[0, 1]`, and on `[[0, 5, 10]]` it returns `[[0, 1/2, 1]]`. -/
theorem rescale_normalized_range [LinearOrderedField α] (g : Grid α)
    (h : amin g < amax g) :
    RescaleImageColorMap g =
        g.map (List.map (fun v => (v - amin g) / (amax g - amin g))) ∧
      (∀ row ∈ RescaleImageColorMap g, ∀ v ∈ row, 0 ≤ v ∧ v ≤ 1) ∧
      RescaleImageColorMap ([[0, 5, 10]] : Grid ℚ) = [[0, 1/2, 1]] := by
  refine ⟨rfl, ?_, ?_⟩
  · intro row hrow v hv
    unfold RescaleImageColorMap at hrow
    rcases List.mem_map.mp hrow with ⟨row0, hrow0, hmapped⟩
    rcases List.mem_map.mp (hmapped ▸ hv) with ⟨w, hw, hwv⟩
    have hwf : w ∈ g.flatten := List.mem_flatten.mpr ⟨row0, hrow0, hw⟩
    have h1 : amin g ≤ w := amin_le g w hwf
    have h2 : w ≤ amax g := le_amax g w hwf
    have hpos : 0 < amax g - amin g := sub_pos.mpr h
    constructor
    · rw [← hwv]
      exact div_nonneg (sub_nonneg.mpr h1) hpos.le
    · rw [← hwv]
      rw [div_le_one hpos]
      exact sub_le_sub_right h2 _
  · have hmin : amin ([[0, 5, 10]] : Grid ℚ) = 0 := by decide
    have hmax : amax ([[0, 5, 10]] : Grid ℚ) = 10 := by decide
    unfold RescaleImageColorMap
    rw [hmin, hmax]
    norm_num

/-- Witness for C8 (amended) at the grid `[[0, 5, 10]]`. -/
theorem rescale_normalized_range_witness :
    amin ([[0, 5, 10]] : Grid ℚ) < amax ([[0, 5, 10]] : Grid ℚ) ∧
      (RescaleImageColorMap ([[0, 5, 10]] : Grid ℚ) =
          ([[0, 5, 10]] : Grid ℚ).map (List.map (fun v =>
            (v - amin ([[0, 5, 10]] : Grid ℚ)) /
              (amax ([[0, 5, 10]] : Grid ℚ) - amin ([[0, 5, 10]] : Grid ℚ)))) ∧
        (∀ row ∈ RescaleImageColorMap ([[0, 5, 10]] : Grid ℚ), ∀ v ∈ row, 0 ≤ v ∧ v ≤ 1) ∧
        RescaleImageColorMap ([[0, 5, 10]] : Grid ℚ) = [[0, 1/2, 1]]) :=
  ⟨by decide, rescale_normalized_range ([[0, 5, 10]] : Grid ℚ) (by decide)⟩

/-- Counterexample to C8 as stated: on the uniform grid `[[5, 5], [5, 5]]`
the code does not raise `DegenerateRange` — no such check exists — it
returns a full 2x2 grid (whose entries are numpy's silent `0/0` NaNs; in the
real-division embedding the junk value 0). -/
theorem rescale_uniform_no_error :
    (RescaleImageColorMap ([[5, 5], [5, 5]] : Grid ℚ)).length = 2 ∧
      ∀ row ∈ RescaleImageColorMap ([[5, 5], [5, 5]] : Grid ℚ), row.length = 2 := by
  unfold RescaleImageColorMap
  constructor
  · simp
  · intro row hrow
    rcases List.mem_map.mp hrow with ⟨row0, hrow0, hmapped⟩
    rw [← hmapped]
    fin_cases hrow0 <;> simp

/-! ### Claim C5: point sampling and overlay priority -/

/-- When no overlay's axes matches the click, the sampling loop leaves its
accumulator untouched. -/
theorem sample_fold_no_match (n : ℕ) (f : Overlay α → α) :
    ∀ (overlays : List (Overlay α)) (acc : Option α),
      (∀ ov ∈ overlays, n ≠ ov.OverlayAxes) →
      overlays.foldl (fun a ov => if n = ov.OverlayAxes then some (f ov) else a) acc = acc := by
  intro overlays
  induction overlays with
  | nil => intro acc _; rfl
  | cons o rest ih =>
    intro acc h
    rw [List.foldl_cons, if_neg (h o (List.mem_cons_self o rest))]
    exact ih acc fun ov hov => h ov (List.mem_cons_of_mem o hov)

/-- With pairwise-distinct overlay axes, the sampling loop returns the value
of the (unique, hence also first) overlay whose axes matches the click. -/
theorem sample_fold_unique_match (n : ℕ) (f : Overlay α → α) :
    ∀ (overlays : List (Overlay α)) (acc : Option α) (ov : Overlay α),
      ov ∈ overlays → n = ov.OverlayAxes →
      overlays.Pairwise (fun a b => a.OverlayAxes ≠ b.OverlayAxes) →
      overlays.foldl (fun a o => if n = o.OverlayAxes then some (f o) else a) acc =
        some (f ov) := by
  intro overlays
  induction overlays with
  | nil => intro acc ov hmem; cases hmem
  | cons o rest ih =>
    intro acc ov hmem hid hdist
    rcases List.pairwise_cons.mp hdist with ⟨hhead, htail⟩
    rcases List.mem_cons.mp hmem with rfl | hmem2
    · rw [List.foldl_cons, if_pos hid]
      exact sample_fold_no_match n f rest (some (f ov))
        fun o2 ho2 => hid ▸ hhead o2 ho2
    · rw [List.foldl_cons, if_neg (fun he => hhead ov hmem2 (he.symm.trans hid))]
      exact ih acc ov hmem2 hid htail

/-- Claim C5: with the guard `X1 > 1, Y1 > 1` satisfied and the overlays'
axes pairwise distinct (as `inset_axes` guarantees), a click whose
`event.inaxes` is some overlay's axes samples that overlay's own
`TemperatureArray` at the axes-local data-space index
`[int(Y1/4), int(X1/4)]` — since axes are distinct at most one overlay can
match, so the first match is the match — and only a click matching no
overlay samples the base `ThermalData`. -/
theorem sample_point_prefers_overlay (OverlayBoxes : List (Overlay α))
    (ThermalData : Grid α) (event : ClickEvent) (d : α)
    (hx : 1 < event.xdata) (hy : 1 < event.ydata)
    (hdist : OverlayBoxes.Pairwise (fun a b => a.OverlayAxes ≠ b.OverlayAxes)) :
    (∀ ov ∈ OverlayBoxes, event.inaxes = ov.OverlayAxes →
      AddMeasurementPointMouseClickCallback OverlayBoxes ThermalData event d =
        some (pyGet2 ov.TemperatureArray (pyInt (event.ydata / 4))
          (pyInt (event.xdata / 4)) d)) ∧
    ((∀ ov ∈ OverlayBoxes, event.inaxes ≠ ov.OverlayAxes) →
      AddMeasurementPointMouseClickCallback OverlayBoxes ThermalData event d =
        some (pyGet2 ThermalData (pyInt (event.ydata / 4))
          (pyInt (event.xdata / 4)) d)) := by
  constructor
  · intro ov hmem hid
    simp only [AddMeasurementPointMouseClickCallback]
    rw [if_pos ⟨hx, hy⟩]
    rw [sample_fold_unique_match event.inaxes
      (fun o => pyGet2 o.TemperatureArray (pyInt (event.ydata / 4))
        (pyInt (event.xdata / 4)) d)
      OverlayBoxes none ov hmem hid hdist]
  · intro hnone
    simp only [AddMeasurementPointMouseClickCallback]
    rw [if_pos ⟨hx, hy⟩]
    rw [sample_fold_no_match event.inaxes
      (fun o => pyGet2 o.TemperatureArray (pyInt (event.ydata / 4))
        (pyInt (event.xdata / 4)) d)
      OverlayBoxes none hnone]

/-- Witness for C5: two overlays with distinct axes 10 and 20 and deliberately
different subregion values, a base field, and a click landing in axes 10. -/
theorem sample_point_prefers_overlay_witness :
    1 < ((⟨5, 5, 10⟩ : ClickEvent)).xdata ∧
      ([⟨10, [[1, 2], [3, 4]]⟩, ⟨20, [[100]]⟩] : List (Overlay ℚ)).Pairwise
        (fun a b => a.OverlayAxes ≠ b.OverlayAxes) ∧
      ((∀ ov ∈ ([⟨10, [[1, 2], [3, 4]]⟩, ⟨20, [[100]]⟩] : List (Overlay ℚ)),
          (⟨5, 5, 10⟩ : ClickEvent).inaxes = ov.OverlayAxes →
          AddMeasurementPointMouseClickCallback
              ([⟨10, [[1, 2], [3, 4]]⟩, ⟨20, [[100]]⟩] : List (Overlay ℚ))
              [[7]] ⟨5, 5, 10⟩ 0 =
            some (pyGet2 ov.TemperatureArray (pyInt ((5 : ℚ) / 4)) (pyInt ((5 : ℚ) / 4)) 0)) ∧
        ((∀ ov ∈ ([⟨10, [[1, 2], [3, 4]]⟩, ⟨20, [[100]]⟩] : List (Overlay ℚ)),
            (⟨5, 5, 10⟩ : ClickEvent).inaxes ≠ ov.OverlayAxes) →
          AddMeasurementPointMouseClickCallback
              ([⟨10, [[1, 2], [3, 4]]⟩, ⟨20, [[100]]⟩] : List (Overlay ℚ))
              [[7]] ⟨5, 5, 10⟩ 0 =
            some (pyGet2 ([[7]] : Grid ℚ) (pyInt ((5 : ℚ) / 4)) (pyInt ((5 : ℚ) / 4)) 0))) := by
  refine ⟨by norm_num, by simp, ?_⟩
  exact sample_point_prefers_overlay
    ([⟨10, [[1, 2], [3, 4]]⟩, ⟨20, [[100]]⟩] : List (Overlay ℚ)) [[7]]
    ⟨5, 5, 10⟩ (0 : ℚ) (by norm_num) (by norm_num) (by simp)

/-! ### Claim C7: min/max locations -/

/-- An in-range `getD` is a member of the list. -/
theorem getD_mem_of_lt (l : List α) (x : ℕ) (d : α) (h : x < l.length) :
    l.getD x d ∈ l := by
  rw [List.getD_eq_getElem?_getD, List.getElem?_eq_getElem h]
  simp only [Option.getD_some]
  exact List.getElem_mem h

/-- The head of `rowWhere` is the column of `v`'s first occurrence within the
row: it holds `v` and every earlier column does not. -/
theorem rowWhere_head_spec [DecidableEq α] (v d : α) :
    ∀ (row : List α) (x : ℕ), (rowWhere v row).head? = some x →
      x < row.length ∧ row.getD x d = v ∧ ∀ x' < x, row.getD x' d ≠ v := by
  intro row
  induction row with
  | nil =>
    intro x hx
    simp [rowWhere] at hx
  | cons t ts ih =>
    intro x hx
    by_cases ht : t = v
    · simp only [rowWhere, if_pos ht, List.singleton_append, List.head?_cons,
        Option.some.injEq] at hx
      subst hx
      exact ⟨Nat.succ_pos _, ht, fun x' hx' => absurd hx' (Nat.not_lt_zero x')⟩
    · simp only [rowWhere, if_neg ht, List.nil_append, List.head?_map] at hx
      cases hh : (rowWhere v ts).head? with
      | none =>
        rw [hh] at hx
        simp at hx
      | some x0 =>
        rw [hh] at hx
        simp only [Option.map_some', Option.some.injEq] at hx
        subst hx
        obtain ⟨h1, h2, h3⟩ := ih x0 hh
        refine ⟨Nat.succ_lt_succ h1, by simpa using h2, ?_⟩
        intro x' hx'
        cases x' with
        | zero => simpa using ht
        | succ x'' =>
          rw [List.getD_cons_succ]
          exact h3 x'' (Nat.lt_of_succ_lt_succ hx')

/-- An empty `rowWhere` result means `v` does not occur in the row. -/
theorem not_mem_of_rowWhere_nil [DecidableEq α] (v : α) :
    ∀ row : List α, rowWhere v row = [] → v ∉ row := by
  intro row
  induction row with
  | nil => simp
  | cons t ts ih =>
    intro h
    simp only [rowWhere] at h
    by_cases ht : t = v
    · rw [if_pos ht] at h
      simp at h
    · rw [if_neg ht, List.nil_append, List.map_eq_nil_iff] at h
      intro hmem
      rcases List.mem_cons.mp hmem with rfl | hm
      · exact ht rfl
      · exact ih h hm

/-- If `v` occurs in the grid, `numpy.where` finds at least one position. -/
theorem gridWhere_ne_nil [DecidableEq α] (v : α) :
    ∀ g : Grid α, v ∈ g.flatten → gridWhere v g ≠ [] := by
  intro g
  induction g with
  | nil => simp
  | cons row rest ih =>
    intro hmem
    simp only [List.flatten_cons, List.mem_append] at hmem
    simp only [gridWhere]
    intro happ
    rcases List.append_eq_nil.mp happ with ⟨h1, h2⟩
    rw [List.map_eq_nil_iff] at h1 h2
    rcases hmem with hrow | hrest
    · exact not_mem_of_rowWhere_nil v row h1 hrow
    · exact ih hrest h2

/-- The head of `gridWhere` is the position of `v`'s first occurrence in
row-major scan order. -/
theorem gridWhere_head_spec [DecidableEq α] (v d : α) :
    ∀ (g : Grid α) (p : ℕ × ℕ), (gridWhere v g).head? = some p →
      p.1 < g.length ∧ p.2 < (g.getD p.1 []).length ∧
        (g.getD p.1 []).getD p.2 d = v ∧
        ∀ y x : ℕ, (y < p.1 ∨ (y = p.1 ∧ x < p.2)) → y < g.length →
          x < (g.getD y []).length → (g.getD y []).getD x d ≠ v := by
  intro g
  induction g with
  | nil =>
    intro p hp
    simp [gridWhere] at hp
  | cons row rest ih =>
    intro p hp
    simp only [gridWhere] at hp
    rcases hrw : rowWhere v row with _ | ⟨x0, xs⟩
    · rw [hrw] at hp
      simp only [List.map_nil, List.nil_append, List.head?_map] at hp
      cases hh : (gridWhere v rest).head? with
      | none =>
        rw [hh] at hp
        simp at hp
      | some p0 =>
        rw [hh] at hp
        simp only [Option.map_some', Option.some.injEq] at hp
        subst hp
        obtain ⟨h1, h2, h3, h4⟩ := ih p0 hh
        have hnotrow : ∀ x : ℕ, x < row.length → row.getD x d ≠ v := by
          intro x hxlen he
          exact not_mem_of_rowWhere_nil v row hrw (he ▸ getD_mem_of_lt row x d hxlen)
        refine ⟨Nat.succ_lt_succ h1, by simpa using h2, by simpa using h3, ?_⟩
        intro y x hcond hylen hxlen
        cases y with
        | zero =>
          exact hnotrow x (by simpa using hxlen)
        | succ y'' =>
          have hcond2 : y'' < p0.1 ∨ (y'' = p0.1 ∧ x < p0.2) := by
            rcases hcond with hlt | ⟨heq, hx⟩
            · exact Or.inl (by omega)
            · exact Or.inr ⟨by omega, hx⟩
          rw [List.getD_cons_succ] at hxlen ⊢
          exact h4 y'' x hcond2 (by simpa using hylen) hxlen
    · rw [hrw] at hp
      simp only [List.map_cons, List.cons_append, List.head?_cons,
        Option.some.injEq] at hp
      subst hp
      have hrh : (rowWhere v row).head? = some x0 := by
        rw [hrw]
        rfl
      obtain ⟨h1, h2, h3⟩ := rowWhere_head_spec v d row x0 hrh
      refine ⟨Nat.succ_pos _, by simpa using h1, by simpa using h2, ?_⟩
      intro y x hcond hylen hxlen
      rcases hcond with hlt | ⟨heq, hx⟩
      · exact absurd hlt (Nat.not_lt_zero y)
      · subst heq
        simpa using h3 x hx

/-- C7, amended: `GetMinMaxTemperatureAndLocation` returns the grid minimum
and maximum, with the locations of their first occurrences in row-major scan
order — but multiplied by 4, i.e. already converted to display space inside
the function rather than returned in data-space coordinates. -/
theorem minmax_locations_scaled_first_occurrence [LinearOrder α] [Zero α]
    [DecidableEq α] (g : Grid α) (hne : g.flatten ≠ []) :
    (GetMinMaxTemperatureAndLocation g).1 = amin g ∧
      (GetMinMaxTemperatureAndLocation g).2.1 = amax g ∧
      (∃ p : ℕ × ℕ, firstRowMajor g (amin g) p ∧
        (GetMinMaxTemperatureAndLocation g).2.2.1 = (4 * p.2, 4 * p.1)) ∧
      (∃ p : ℕ × ℕ, firstRowMajor g (amax g) p ∧
        (GetMinMaxTemperatureAndLocation g).2.2.2 = (4 * p.2, 4 * p.1)) := by
  obtain ⟨pmin, restmin, hmin⟩ :=
    List.exists_cons_of_ne_nil (gridWhere_ne_nil (amin g) g (amin_mem g hne))
  obtain ⟨pmax, restmax, hmax⟩ :=
    List.exists_cons_of_ne_nil (gridWhere_ne_nil (amax g) g (amax_mem g hne))
  obtain ⟨h1, h2, h3, h4⟩ :=
    gridWhere_head_spec (amin g) 0 g pmin (by rw [hmin]; rfl)
  obtain ⟨k1, k2, k3, k4⟩ :=
    gridWhere_head_spec (amax g) 0 g pmax (by rw [hmax]; rfl)
  simp only [GetMinMaxTemperatureAndLocation, hmin, hmax, List.headD_cons]
  exact ⟨h3, k3, ⟨pmin, ⟨h1, h2, h3, h4⟩, rfl⟩, ⟨pmax, ⟨k1, k2, k3, k4⟩, rfl⟩⟩

/-- Witness for the amended C7 at the grid `[[5, 1], [9, 8]]` (minimum 1 at
data position x=1, y=0; maximum 9 at x=0, y=1). -/
theorem minmax_locations_scaled_first_occurrence_witness :
    ([[5, 1], [9, 8]] : Grid ℚ).flatten ≠ [] ∧
      ((GetMinMaxTemperatureAndLocation ([[5, 1], [9, 8]] : Grid ℚ)).1 =
          amin ([[5, 1], [9, 8]] : Grid ℚ) ∧
        (GetMinMaxTemperatureAndLocation ([[5, 1], [9, 8]] : Grid ℚ)).2.1 =
          amax ([[5, 1], [9, 8]] : Grid ℚ) ∧
        (∃ p : ℕ × ℕ, firstRowMajor ([[5, 1], [9, 8]] : Grid ℚ)
            (amin ([[5, 1], [9, 8]] : Grid ℚ)) p ∧
          (GetMinMaxTemperatureAndLocation ([[5, 1], [9, 8]] : Grid ℚ)).2.2.1 =
            (4 * p.2, 4 * p.1)) ∧
        (∃ p : ℕ × ℕ, firstRowMajor ([[5, 1], [9, 8]] : Grid ℚ)
            (amax ([[5, 1], [9, 8]] : Grid ℚ)) p ∧
          (GetMinMaxTemperatureAndLocation ([[5, 1], [9, 8]] : Grid ℚ)).2.2.2 =
            (4 * p.2, 4 * p.1))) :=
  ⟨by decide,
    minmax_locations_scaled_first_occurrence ([[5, 1], [9, 8]] : Grid ℚ) (by decide)⟩

/-- Counterexample to C7 as stated: on `[[5, 1], [9, 8]]` the minimum 1 sits
at data-space location (x=1, y=0), but the function returns `MinLocation`
(4, 0) — the location already multiplied by 4 into display space inside the
function, not a data-space coordinate with the conversion left to a separate
step. -/
theorem minmax_location_already_display_scaled :
    (GetMinMaxTemperatureAndLocation ([[5, 1], [9, 8]] : Grid ℚ)).2.2.1 = (4, 0) ∧
      ((4, 0) : ℕ × ℕ) ≠ ((1, 0) : ℕ × ℕ) := by
  constructor
  · decide
  · decide

end FLIR
